import Mathlib

/-!
Verification development for the job-advertising collection pipeline
(`src/collector.py`, `src/cleaner.py`, `src/exporter.py`, `src/scraper.py`).

The pipeline is embedded shallowly:
* a cell value of a pandas `DataFrame` / Python record is a `Value`;
* a record (one row, in pandas `to_dict(orient='records')` form) is an
  association list from column name to `Value`;
* a `DataFrame` is its ordered column list plus its ordered row list;
* the orchestrator (`JobCollector.collect_and_export`) is a fold over the
  location × term loops, with an explicit event trace recording provider
  calls, inter-search sleeps and the consolidation / cleaning / export
  phases, and with the external Search Provider abstracted as an oracle.

Machine floats only matter to the code through their NaN-ness (the code
never does float arithmetic), so a float is modelled as `Option Int`:
`none` is IEEE NaN, `some v` a finite value.  Pandas `drop_duplicates`
treats NaN cells as equal to each other, which the payload-free `none`
reproduces.
-/

/-- A Python / pandas cell value.
* `null` is Python `None`;
* `na` is a pandas missing-value sentinel (`pd.NA` / `pd.NaT`);
* `float none` is IEEE NaN, `float (some v)` a finite float;
* `date iso` is a `datetime`/`date`/`pd.Timestamp` whose `isoformat()`
  rendering is `iso`;
* `other tag` is a value of a type the JSON writer does not recognize
  (e.g. a list or a custom object), identified by its type tag. -/
inductive Value where
  | null
  | na
  | str (s : String)
  | float (val : Option Int)
  | int (n : Int)
  | bool (b : Bool)
  | date (iso : String)
  | other (tag : String)
deriving DecidableEq, Repr

/-- One record: a row as produced by `to_dict(orient='records')`. -/
abbrev Record := List (String × Value)

/-- A pandas DataFrame: ordered column names plus ordered rows. -/
structure DataFrame where
  columns : List String
  rows : List Record
deriving DecidableEq, Repr

/-- Column access on a record (`record[col]`). -/
def getField (r : Record) (c : String) : Option Value :=
  (r.find? (fun p => p.1 == c)).map (fun p => p.2)

/-- Python `str.lower()` (ASCII case folding, which is all the code compares
against).  Defined over the character list so the kernel can evaluate it. -/
def pyLower (s : String) : String :=
  ⟨s.data.map Char.toLower⟩

/-- Python `str.strip()`: remove leading and trailing whitespace.  Defined
over the character list so the kernel can evaluate it. -/
def pyStrip (s : String) : String :=
  ⟨((s.data.dropWhile Char.isWhitespace).reverse.dropWhile Char.isWhitespace).reverse⟩

/-- `df.empty` in pandas: true when either axis has length zero. -/
def dfEmpty (df : DataFrame) : Bool :=
  df.rows.isEmpty || df.columns.isEmpty

/-- `pd.isna` on one cell: `None`, `pd.NA`/`pd.NaT` and float NaN are
missing, everything else is not. -/
def isna (v : Value) : Bool :=
  match v with
  | .null => true
  | .na => true
  | .float x => x.isNone
  | _ => false

/-! ## Consolidation (`JobCollector._consolidate_and_export`, dedup phase)

`drop_duplicates(keep="first")` scans the rows in order and drops a row
exactly when its key was already seen on an earlier row. -/

/-- The scan behind pandas `drop_duplicates(keep="first")`: `seen` holds the
keys of the rows already kept. -/
def drop_duplicates_aux {α K : Type} [DecidableEq K] (key : α → K) (seen : List K) :
    List α → List α
  | [] => []
  | x :: xs =>
    if key x ∈ seen then drop_duplicates_aux key seen xs
    else x :: drop_duplicates_aux key (key x :: seen) xs

/-- `drop_duplicates(keep="first")` keyed by `key`. -/
def drop_duplicates_by {α K : Type} [DecidableEq K] (key : α → K) (l : List α) : List α :=
  drop_duplicates_aux key [] l

/-- The deduplication policy as the specification words it: keep the first
record, discard every later record with the same key, continue. -/
def specKeepFirst {α K : Type} [DecidableEq K] (key : α → K) : List α → List α
  | [] => []
  | x :: xs => x :: specKeepFirst key (xs.filter (fun y => key y ≠ key x))
termination_by l => l.length
decreasing_by
  simp only [List.length_cons]
  exact Nat.lt_succ_of_le (List.length_filter_le _ _)

theorem specKeepFirst_cons {α K : Type} [DecidableEq K] (key : α → K) (x : α) (xs : List α) :
    specKeepFirst key (x :: xs) = x :: specKeepFirst key (xs.filter (fun y => key y ≠ key x)) := by
  rw [specKeepFirst]

theorem drop_duplicates_aux_eq_specKeepFirst {α K : Type} [DecidableEq K] (key : α → K)
    (l : List α) : ∀ seen : List K,
    drop_duplicates_aux key seen l = specKeepFirst key (l.filter (fun y => key y ∉ seen)) := by
  induction l with
  | nil => intro seen; simp [drop_duplicates_aux, specKeepFirst]
  | cons x xs ih =>
    intro seen
    by_cases hx : key x ∈ seen
    · simp only [drop_duplicates_aux, if_pos hx, List.filter_cons]
      have : (decide (key x ∉ seen)) = false := by simp [hx]
      rw [this]
      simp only [Bool.false_eq_true, if_false]
      exact ih seen
    · simp only [drop_duplicates_aux, if_neg hx, List.filter_cons]
      have : (decide (key x ∉ seen)) = true := by simp [hx]
      rw [this]
      simp only [if_true, specKeepFirst_cons]
      rw [ih (key x :: seen), List.filter_filter]
      congr 2
      apply List.filter_congr
      intro y _
      by_cases h1 : key y = key x <;> by_cases h2 : key y ∈ seen <;>
        simp [h1, h2]

theorem drop_duplicates_by_eq_specKeepFirst {α K : Type} [DecidableEq K] (key : α → K)
    (l : List α) : drop_duplicates_by key l = specKeepFirst key l := by
  rw [drop_duplicates_by, drop_duplicates_aux_eq_specKeepFirst]
  congr 1
  apply List.filter_eq_self.mpr
  intro y _
  simp

/-- The dedup phase of `JobCollector._consolidate_and_export`: dedup by the
`id` column when it exists, otherwise dedup on whole rows; also report how
many duplicates were removed. -/
def dedupStep (consolidated : DataFrame) : DataFrame × Nat :=
  if "id" ∈ consolidated.columns then
    let unique_jobs : DataFrame :=
      { columns := consolidated.columns
        rows := drop_duplicates_by (fun r => getField r "id") consolidated.rows }
    (unique_jobs, consolidated.rows.length - unique_jobs.rows.length)
  else
    let unique_jobs : DataFrame :=
      { columns := consolidated.columns
        rows := drop_duplicates_by (fun r => r) consolidated.rows }
    (unique_jobs, consolidated.rows.length - unique_jobs.rows.length)

/-- **C1.** For every consolidated record set: if the schema contains the
`id` field, consolidation deduplicates by that identifier, keeping exactly
the first occurrence in concatenation order and discarding every later
record with the same identifier; if `id` is absent from the schema, it
deduplicates by whole-record structural equality, again keeping the first
occurrence.  (`specKeepFirst` is the claim's rule verbatim: keep the first
record, discard every later record with the same key.) -/
theorem consolidation_dedup_keeps_first (df : DataFrame) :
    (dedupStep df).1.columns = df.columns ∧
    (dedupStep df).1.rows =
      (if "id" ∈ df.columns
       then specKeepFirst (fun r => getField r "id") df.rows
       else specKeepFirst (fun r => r) df.rows) := by
  by_cases h : "id" ∈ df.columns <;>
    simp [dedupStep, h, drop_duplicates_by_eq_specKeepFirst]

/-! ## Cleaner (`JobDataCleaner`) -/

/-- `JobDataCleaner.ESSENTIAL_COLUMNS`: the fixed allow-list, in order. -/
def ESSENTIAL_COLUMNS : List String :=
  ["id", "site", "job_url", "job_url_direct", "title", "company", "location",
   "date_posted", "job_type", "salary_source", "interval", "min_amount",
   "max_amount", "currency", "is_remote", "job_level", "job_function",
   "description", "skills", "search_term", "search_location", "search_country"]

/-- `JobDataCleaner._is_nan`: `value != value or str(value).lower() == 'nan'`.
For an IEEE float both disjuncts hold exactly when the value is NaN
(`x != x` iff NaN, and `str(x)` is `"nan"` iff NaN), i.e. when the modelled
float is `none`. -/
def _is_nan (x : Option Int) : Bool :=
  x.isNone

/-- `JobDataCleaner._is_invalid_string`:
`value.strip() == '' or value.lower() == 'nan'`. -/
def _is_invalid_string (s : String) : Bool :=
  pyStrip s == "" || pyLower s == "nan"

/-- The per-value effect of `JobDataCleaner._clean_record`: `None` is
skipped (`continue`), a NaN float becomes `None`, an invalid string becomes
`None`, any other value is untouched. -/
def clean_value (v : Value) : Value :=
  match v with
  | .null => .null
  | .float x => if _is_nan x then .null else .float x
  | .str s => if _is_invalid_string s then .null else .str s
  | v => v

/-- `JobDataCleaner._clean_record`: apply `clean_value` to every field of
the record (the Python code mutates the dict in place; here the updated
record is returned). -/
def _clean_record (r : Record) : Record :=
  r.map (fun p => (p.1, clean_value p.2))

/-- The combined effect on one cell of
`jobs.replace({pd.NA: None, pd.NaT: None})` followed by
`jobs.where(pd.notna(jobs), None)`: every missing-value sentinel becomes
`None`, everything else is kept. -/
def whereNotna (v : Value) : Value :=
  if isna v then .null else v

/-- `JobDataCleaner._remove_invalid_values`: collapse pandas missing-value
sentinels to `None`, convert to records, and clean each record.
`pd.DataFrame(list_of_records)` rebuilds the frame: on an empty record list
it has no columns; on a non-empty one it recovers the (uniform) key order,
which is the input's column order. -/
def _remove_invalid_values (df : DataFrame) : DataFrame :=
  let rows := df.rows.map (fun r => r.map (fun p => (p.1, whereNotna p.2)))
  let rows := rows.map _clean_record
  { columns := if rows.isEmpty then [] else df.columns, rows := rows }

/-- `JobDataCleaner._filter_columns`: keep only the allow-listed columns
that exist in the frame, in allow-list order.  (Pandas column selection
`jobs[available_columns]` always yields exactly those columns; the `getD`
default is unreachable on well-formed rows.) -/
def _filter_columns (df : DataFrame) : DataFrame :=
  let available_columns := ESSENTIAL_COLUMNS.filter (fun c => c ∈ df.columns)
  { columns := available_columns
    rows := df.rows.map (fun r =>
      available_columns.map (fun c => (c, (getField r c).getD Value.na))) }

/-- The row predicate of the description gate
`jobs[jobs['description'].notna() & (jobs['description'] != '')]`. -/
def descNonEmpty (r : Record) : Bool :=
  match getField r "description" with
  | some v => !(isna v) && (v != Value.str "")
  | none => false

/-- The description gate of `JobDataCleaner.clean`: when the schema has a
`description` column, keep only the rows whose description is present and
non-empty. -/
def description_gate (df : DataFrame) : DataFrame :=
  if "description" ∈ df.columns
  then { columns := df.columns, rows := df.rows.filter descNonEmpty }
  else df

/-- `JobDataCleaner.clean`: `None`/empty input gives `None`; drop records
without a description when the schema has one; project onto the allow-list;
normalize invalid values; return `None` instead of an empty frame. -/
def cleaner_clean (jobs : Option DataFrame) : Option DataFrame :=
  match jobs with
  | none => none
  | some df =>
    if dfEmpty df then none
    else
      let df3 := _remove_invalid_values (_filter_columns (description_gate df))
      if dfEmpty df3 then none else some df3

theorem description_gate_columns (df : DataFrame) :
    (description_gate df).columns = df.columns := by
  unfold description_gate
  split <;> rfl

theorem remove_invalid_values_rows_isEmpty (df : DataFrame) :
    (_remove_invalid_values df).rows.isEmpty = df.rows.isEmpty := by
  rcases hr : df.rows with _ | ⟨a, l⟩ <;> simp [_remove_invalid_values, hr]

theorem remove_invalid_values_columns (df : DataFrame) :
    (_remove_invalid_values df).columns = if df.rows.isEmpty then [] else df.columns := by
  simp only [_remove_invalid_values]
  rcases df.rows with _ | _ <;> simp

theorem filter_columns_columns (df : DataFrame) :
    (_filter_columns df).columns = ESSENTIAL_COLUMNS.filter (fun c => c ∈ df.columns) :=
  rfl

/-- The invalid-value rule exactly as claim C2 words it: a not-a-number
float, a string empty after trimming whitespace, or a string
case-insensitively equal to `"nan"`. -/
def invalid_value_per_claim (v : Value) : Bool :=
  match v with
  | .float x => x.isNone
  | .str s => pyStrip s == "" || pyLower s == "nan"
  | _ => false

/-- **C2.** The cleaning step rewrites to an explicit null exactly the
NaN floats, the strings empty after trimming, and the case-insensitive
`"nan"` strings, leaves every other value unchanged, and does so at every
field of the record (the rewrite is the same pointwise rule at each field). -/
theorem clean_record_normalizes_every_field (r : Record) :
    _clean_record r =
      r.map (fun p => (p.1, if invalid_value_per_claim p.2 then Value.null else p.2)) := by
  unfold _clean_record
  apply List.map_congr_left
  intro p _
  cases h : p.2 <;>
    simp [clean_value, invalid_value_per_claim, _is_nan, _is_invalid_string, h]

/-- A populated input frame that becomes empty after cleaning: its single
record has an empty description, so the description gate drops it. -/
def emptiedAfterCleaningDf : DataFrame :=
  { columns := ["description"], rows := [[("description", Value.str "")]] }

/-- **C5, counterexample.** The claim asserts that the "no data" outcome for
a record set that becomes empty after cleaning is distinguishable by the
caller from the outcome for a never-populated (`None`) input.  It is not:
both are the very same `None`.  Here a populated input (one record, dropped
by the description gate) yields exactly the outcome of a `None` input. -/
theorem cleaner_empty_signal_indistinguishable :
    dfEmpty emptiedAfterCleaningDf = false ∧
    cleaner_clean (some emptiedAfterCleaningDf) = cleaner_clean none := by
  constructor
  · decide
  · decide

/-- **C5, amended.** When the record set becomes empty after the cleaning
steps, the Cleaner returns `None` rather than an empty record set — the
Cleaner never returns an empty frame — but that `None` is the same value
returned for a never-populated (`None`/empty) input, so the caller cannot
distinguish the two outcomes. -/
theorem cleaner_never_returns_empty (jobs : Option DataFrame) (df' : DataFrame)
    (h : cleaner_clean jobs = some df') :
    dfEmpty df' = false ∧ cleaner_clean none = none := by
  refine ⟨?_, rfl⟩
  cases jobs with
  | none => simp [cleaner_clean] at h
  | some df =>
    simp only [cleaner_clean] at h
    split at h
    · exact absurd h (by simp)
    · split at h
      · exact absurd h (by simp)
      · rename_i hne
        injection h with h'
        rw [← h']
        simpa using hne

/-- A healthy input frame: survives every cleaning stage. -/
def healthyInputDf : DataFrame :=
  { columns := ["id", "description"]
    rows := [[("id", Value.str "1"), ("description", Value.str "great job")]] }

theorem cleaner_never_returns_empty_witness :
    dfEmpty healthyInputDf = false ∧ cleaner_clean none = none :=
  cleaner_never_returns_empty (some healthyInputDf) healthyInputDf (by decide)

/-- **C10.** The record set returned by the Cleaner has its columns in the
fixed allow-list order — the `ESSENTIAL_COLUMNS` sequence restricted to the
columns present in the input schema — independent of the input column
order; hence the exported column order is a subsequence of the allow-list
order. -/
theorem cleaner_column_order (df df' : DataFrame)
    (h : cleaner_clean (some df) = some df') :
    df'.columns = ESSENTIAL_COLUMNS.filter (fun c => c ∈ df.columns) ∧
    df'.columns.Sublist ESSENTIAL_COLUMNS := by
  have hcols : ∀ x : DataFrame, x.columns = ESSENTIAL_COLUMNS.filter (fun c => c ∈ df.columns) →
      x.columns = ESSENTIAL_COLUMNS.filter (fun c => c ∈ df.columns) ∧
      x.columns.Sublist ESSENTIAL_COLUMNS := by
    intro x hx
    exact ⟨hx, hx ▸ List.filter_sublist _⟩
  apply hcols
  simp only [cleaner_clean] at h
  split at h
  · exact absurd h (by simp)
  · split at h
    · exact absurd h (by simp)
    · rename_i hne
      injection h with h'
      rw [← h', remove_invalid_values_columns]
      have hrows : (_filter_columns (description_gate df)).rows.isEmpty = false := by
        by_contra hc
        apply hne
        rw [dfEmpty, remove_invalid_values_rows_isEmpty]
        simp only [Bool.not_eq_false] at hc
        simp [hc]
      rw [hrows]
      simp only [Bool.false_eq_true, if_false]
      rw [filter_columns_columns, description_gate_columns]

/-- A concrete input whose columns arrive in the reverse of allow-list
order (`description` before `id`). -/
def reorderedInputDf : DataFrame :=
  { columns := ["description", "id"]
    rows := [[("description", Value.str "x"), ("id", Value.str "7")]] }

/-- What the Cleaner returns for `reorderedInputDf`: columns back in
allow-list order. -/
def reorderedCleanedDf : DataFrame :=
  { columns := ["id", "description"]
    rows := [[("id", Value.str "7"), ("description", Value.str "x")]] }

/-- C10 witness: a concrete input whose columns arrive in the "wrong" order
still comes out in allow-list order. -/
theorem cleaner_column_order_witness :
    reorderedCleanedDf.columns
      = ESSENTIAL_COLUMNS.filter (fun c => c ∈ reorderedInputDf.columns) ∧
    reorderedCleanedDf.columns.Sublist ESSENTIAL_COLUMNS :=
  cleaner_column_order reorderedInputDf reorderedCleanedDf (by decide)

/-! ## Exporter (`JobDataExporter`) -/

/-- The per-value effect of `JobDataExporter._clean_for_json`: `None` is
skipped, a NaN float becomes `None`, a string whose `lower()` is `"nan"`
becomes `None`; note there is no empty-after-strip check here, unlike the
Cleaner's `_is_invalid_string`. -/
def clean_for_json_value (v : Value) : Value :=
  match v with
  | .null => .null
  | .float x => if _is_nan x then .null else .float x
  | .str s => if pyLower s == "nan" then .null else .str s
  | v => v

/-- `JobDataExporter._clean_for_json`: the sweep over every field of every
record of `jobs_dict` (the Python code mutates in place; here the updated
record list is returned). -/
def _clean_for_json (rows : List Record) : List Record :=
  rows.map (fun r => r.map (fun p => (p.1, clean_for_json_value p.2)))

/-- A serialized JSON scalar. -/
inductive Json where
  | jstr (s : String)
  | jnum (n : Int)
  | jbool (b : Bool)
  | jnull
deriving DecidableEq, Repr

/-- The `TypeError` text raised by `JobDataExporter._json_serializer`. -/
def typeErrorMsg (tag : String) : String :=
  "Type " ++ tag ++ " is not serializable"

/-- `JobDataExporter._json_serializer`, the `default=` fallback `json.dump`
invokes on a value it cannot natively serialize: dates/timestamps become
their `isoformat()` string, `None`/NaN/pandas-NA become `None`, and any
other value raises a `TypeError` (`pd.isna` on a recognized scalar returns
`False`, and on a list-like it raises, which the `try` swallows — both
paths fall through to the `raise`). -/
def _json_serializer (v : Value) : Except String Value :=
  match v with
  | .date iso => .ok (.str iso)
  | .null => .ok .null
  | .float none => .ok .null
  | .na => .ok .null
  | .float (some _) => .error (typeErrorMsg "float")
  | .str _ => .error (typeErrorMsg "str")
  | .int _ => .error (typeErrorMsg "int")
  | .bool _ => .error (typeErrorMsg "bool")
  | .other tag => .error (typeErrorMsg tag)

/-- Native serialization of the value returned by `_json_serializer`
(it only ever returns a string or `None`). -/
def encodeNative (v : Value) : Except String Json :=
  match v with
  | .str s => .ok (.jstr s)
  | .int n => .ok (.jnum n)
  | .bool b => .ok (.jbool b)
  | .null => .ok .jnull
  | .float (some x) => .ok (.jnum x)
  | .float none => .error "ValueError: Out of range float values are not JSON compliant"
  | v =>
    match _json_serializer v with
    | .error e => .error e
    | .ok _ => .error (typeErrorMsg "circular default")

/-- One cell under `json.dump(..., default=_json_serializer, allow_nan=False)`:
native scalars serialize directly, a non-finite float is rejected by
`allow_nan=False`, and any other value goes through the `default` fallback. -/
def encodeValue (v : Value) : Except String Json :=
  match v with
  | .str s => .ok (.jstr s)
  | .int n => .ok (.jnum n)
  | .bool b => .ok (.jbool b)
  | .null => .ok .jnull
  | .float (some x) => .ok (.jnum x)
  | .float none => .error "ValueError: Out of range float values are not JSON compliant"
  | v =>
    match _json_serializer v with
    | .error e => .error e
    | .ok w => encodeNative w

/-- Serialize one record, field by field; the first failure aborts the dump. -/
def encodeRecord : Record → Except String (List (String × Json))
  | [] => .ok []
  | p :: rest =>
    match encodeValue p.2 with
    | .error e => .error e
    | .ok j =>
      match encodeRecord rest with
      | .error e => .error e
      | .ok tl => .ok ((p.1, j) :: tl)

/-- Serialize the record list, record by record. -/
def encodeRows : List Record → Except String (List (List (String × Json)))
  | [] => .ok []
  | r :: rest =>
    match encodeRecord r with
    | .error e => .error e
    | .ok jr =>
      match encodeRows rest with
      | .error e => .error e
      | .ok tl => .ok (jr :: tl)

/-- `JobDataExporter._export_csv`: `to_csv` writes the file; the `ioFail`
oracle stands for the file system refusing the write (the CSV text itself
is not inspected by any claim). -/
def _export_csv (ioFail : Bool) (_df : DataFrame) : Except String Unit :=
  if ioFail then .error "IOError: could not open file" else .ok ()

/-- `JobDataExporter._export_json`: `to_dict(orient='records')` builds
fresh record dicts (a copy of the rows), `_clean_for_json` sweeps that
copy, and `json.dump` serializes it into the opened file. -/
def _export_json (ioFail : Bool) (df : DataFrame) :
    Except String (List (List (String × Json))) :=
  let jobs_dict := df.rows
  let cleaned := _clean_for_json jobs_dict
  if ioFail then .error "IOError: could not open file"
  else encodeRows cleaned

/-- The `try` body of `JobDataExporter.export`: CSV write, then JSON write. -/
def exportBody (ioFail : Bool) (df : DataFrame) :
    Except String (List (List (String × Json))) :=
  match _export_csv ioFail df with
  | .error e => .error e
  | .ok _ => _export_json ioFail df

/-- `JobDataExporter.export`: `None`/empty input reports failure; any
exception from the body is caught and reported as `False`; otherwise
`True`. -/
def exporter_export (ioFail : Bool) (jobs : Option DataFrame) : Bool :=
  match jobs with
  | none => false
  | some df =>
    if dfEmpty df then false
    else
      match exportBody ioFail df with
      | .ok _ => true
      | .error _ => false

/-- **C6, counterexample.** The claim says the exporter's pre-serialization
sweep computes the same result as the Cleaner's normalization rule on every
value, both rewriting strings empty after trimming to null.  The exporter's
sweep has no empty-after-strip check: on the whitespace string `" "` the
Cleaner's rule yields null while the exporter's sweep leaves it unchanged. -/
theorem json_sweep_differs_from_cleaner :
    clean_for_json_value (Value.str " ") ≠ clean_value (Value.str " ") := by
  decide

/-- **C6, amended.** The exporter's pre-serialization sweep agrees with the
Cleaner's invalid-value normalization rule on every value — NaN floats and
case-insensitive `"nan"` strings to null, everything else unchanged —
except on strings that are empty after trimming (and not case-insensitively
`"nan"`), which the Cleaner rewrites to null but the exporter's sweep
leaves unchanged. -/
theorem json_sweep_vs_cleaner_rule (v : Value) :
    clean_for_json_value v = clean_value v ↔
      ¬ ∃ s, v = Value.str s ∧ pyStrip s = "" ∧ pyLower s ≠ "nan" := by
  cases v with
  | str s =>
    by_cases hn : pyLower s = "nan" <;> by_cases he : pyStrip s = "" <;>
      simp [clean_for_json_value, clean_value, _is_invalid_string, hn, he]
  | _ => simp [clean_for_json_value, clean_value]

theorem encodeRecord_error_of_mem (r : Record) (k tag : String)
    (h : (k, Value.other tag) ∈ r) : ∃ e, encodeRecord r = Except.error e := by
  induction r with
  | nil => cases h
  | cons p rest ih =>
    rcases List.mem_cons.mp h with hp | hrest
    · refine ⟨typeErrorMsg tag, ?_⟩
      rw [encodeRecord, ← hp]
      rfl
    · rw [encodeRecord]
      cases hv : encodeValue p.2 with
      | error e => exact ⟨e, rfl⟩
      | ok j =>
        obtain ⟨e, he⟩ := ih hrest
        rw [he]
        exact ⟨e, rfl⟩

theorem encodeRows_error_of_mem (rows : List Record) (r : Record)
    (hr : r ∈ rows) (herr : ∃ e, encodeRecord r = Except.error e) :
    ∃ e, encodeRows rows = Except.error e := by
  induction rows with
  | nil => cases hr
  | cons a rest ih =>
    rcases List.mem_cons.mp hr with ha | hrest
    · obtain ⟨e, he⟩ := herr
      rw [encodeRows, ← ha, he]
      exact ⟨e, rfl⟩
    · rw [encodeRows]
      cases hv : encodeRecord a with
      | error e => exact ⟨e, rfl⟩
      | ok j =>
        obtain ⟨e, he⟩ := ih hrest
        rw [he]
        exact ⟨e, rfl⟩

/-- **C7.** A value of a type the JSON writer does not recognize that
reaches serialization makes the writer fail loudly with a `TypeError`:
the JSON dump returns an error (no document is produced, so the value is
never silently coerced into the output), and `export` surfaces it as the
`False` defect signal rather than swallowing it into a success. -/
theorem writer_rejects_unrecognized_type (df : DataFrame) (r : Record) (k tag : String)
    (h1 : r ∈ df.rows) (h2 : (k, Value.other tag) ∈ r) (h3 : dfEmpty df = false) :
    encodeValue (Value.other tag) = Except.error (typeErrorMsg tag) ∧
    (∃ e, _export_json false df = Except.error e) ∧
    exporter_export false (some df) = false := by
  have hclean : (k, Value.other tag) ∈
      r.map (fun p => (p.1, clean_for_json_value p.2)) := by
    have := List.mem_map_of_mem (fun p => (p.1, clean_for_json_value p.2)) h2
    simpa [clean_for_json_value] using this
  have hrow : r.map (fun p => (p.1, clean_for_json_value p.2)) ∈ _clean_for_json df.rows :=
    List.mem_map_of_mem _ h1
  have hjson : ∃ e, _export_json false df = Except.error e := by
    obtain ⟨e, he⟩ := encodeRows_error_of_mem (_clean_for_json df.rows) _ hrow
      (encodeRecord_error_of_mem _ k tag hclean)
    exact ⟨e, by simpa [_export_json] using he⟩
  refine ⟨rfl, hjson, ?_⟩
  obtain ⟨e, he⟩ := hjson
  simp [exporter_export, h3, exportBody, _export_csv, he]

/-- The concrete frame for the C7 witness: one record holding a value of an
unrecognized type (a Python list). -/
def unrecognizedValueDf : DataFrame :=
  { columns := ["skills"], rows := [[("skills", Value.other "list")]] }

theorem writer_rejects_unrecognized_type_witness :
    encodeValue (Value.other "list") = Except.error (typeErrorMsg "list") ∧
    (∃ e, _export_json false unrecognizedValueDf = Except.error e) ∧
    exporter_export false (some unrecognizedValueDf) = false :=
  writer_rejects_unrecognized_type unrecognizedValueDf
    [("skills", Value.other "list")] "skills" "list"
    (by decide) (by decide) (by decide)

/-- The caller-side memory of `JobCollector._consolidate_and_export`: the
binding that holds the cleaned, deduplicated record set when
`exporter.export(clean_jobs, ...)` runs. -/
structure Mem where
  clean_jobs : Option DataFrame
deriving DecidableEq, Repr

/-- One call to `JobDataExporter.export` as seen from the caller's memory:
the export reads `clean_jobs`, works on the fresh dicts made by
`to_dict(orient='records')`, and never assigns to the caller's binding, so
the memory after the call carries the same record set. -/
def export_call (ioFail : Bool) (m : Mem) : Bool × Mem :=
  (exporter_export ioFail m.clean_jobs, { clean_jobs := m.clean_jobs })

/-- **C9.** Export — whether it succeeds or fails with an I/O or
serialization error — leaves the in-memory record set unchanged, and a
failing export body is reported as the boolean `false`, not a raised
exception. -/
theorem export_frame_and_failure_signal (ioFail : Bool) (m : Mem) :
    (export_call ioFail m).2 = m ∧
    (∀ df e, m.clean_jobs = some df → exportBody ioFail df = Except.error e →
       (export_call ioFail m).1 = false) := by
  constructor
  · rfl
  · intro df e hdf he
    simp only [export_call, exporter_export, hdf]
    split
    · rfl
    · rw [he]

/-- The concrete frame for the C9 witness. -/
def exportMemDf : DataFrame :=
  { columns := ["id"], rows := [[("id", Value.str "9")]] }

theorem export_frame_and_failure_signal_witness :
    (export_call true { clean_jobs := some exportMemDf }).2
        = { clean_jobs := some exportMemDf } ∧
    (export_call true { clean_jobs := some exportMemDf }).1 = false :=
  ⟨(export_frame_and_failure_signal true { clean_jobs := some exportMemDf }).1,
   (export_frame_and_failure_signal true { clean_jobs := some exportMemDf }).2
     exportMemDf "IOError: could not open file" rfl rfl⟩

/-! ## Orchestrator (`JobCollector`)

The external Search Provider (`JobScraper.search`, which wraps
`jobspy.scrape_jobs`) is abstracted as an oracle mapping one search term,
one location and one country to either `none` (provider failure, or a
provider result with no rows — `JobScraper.search` returns `None` in both
cases) or a raw record frame.  The run is replayed against an event trace:
one `search` event per provider call, one `sleep` event per inter-search
pause, and one event for each of the consolidation, cleaning and export
phases. -/

/-- One entry of the configured `locations` list. -/
structure LocationConfig where
  location : String
  country : String
deriving DecidableEq, Repr

/-- The Search Provider oracle: term, location, country to an optional
result frame. -/
abbrev Provider := String → String → String → Option DataFrame

/-- The observable events of one run. -/
inductive Event where
  | search (term location country : String)
  | sleep (seconds : Nat)
  | consolidateEv
  | cleanEv
  | exportEv
deriving DecidableEq, Repr

def isSearchEv : Event → Bool
  | .search _ _ _ => true
  | _ => false

def isSleepEv : Event → Bool
  | .sleep _ => true
  | _ => false

/-- Pandas column assignment `df[c] = v` (a scalar broadcast): overwrite
the column when it exists, otherwise append it on the right. -/
def setColumn (df : DataFrame) (c : String) (v : Value) : DataFrame :=
  if c ∈ df.columns then
    { columns := df.columns
      rows := df.rows.map (fun r => r.map (fun p => if p.1 = c then (c, v) else p)) }
  else
    { columns := df.columns ++ [c]
      rows := df.rows.map (fun r => r ++ [(c, v)]) }

/-- The tagging step of the search loop: `jobs["search_term"] = term`,
`jobs["search_location"] = location`, `jobs["search_country"] = country`. -/
def tagDF (df : DataFrame) (term location country : String) : DataFrame :=
  setColumn (setColumn (setColumn df "search_term" (Value.str term))
      "search_location" (Value.str location))
    "search_country" (Value.str country)

/-- What one loop iteration appends to the accumulator:
`if jobs is not None and not jobs.empty:` tag and keep the batch. -/
def batchOf (provider : Provider) (lc : LocationConfig) (t : String) : Option DataFrame :=
  match provider t lc.location lc.country with
  | some jobs => if dfEmpty jobs then none else some (tagDF jobs t lc.location lc.country)
  | none => none

/-- The mutable state of the search loop: the search counter, the
accumulated batches, and the event trace. -/
structure LoopState where
  current : Nat
  all_jobs : List DataFrame
  trace : List Event
deriving Repr

/-- The inner `for term in search_terms` loop: count the search, call the
provider, keep a tagged non-empty batch, and pause unless this was the
last combination of the whole run. -/
def runTerms (provider : Provider) (lc : LocationConfig) (total delay : Nat) :
    List String → LoopState → LoopState
  | [], s => s
  | t :: ts, s =>
    let current := s.current + 1
    let all_jobs := s.all_jobs ++ (batchOf provider lc t).toList
    let trace := s.trace ++ [Event.search t lc.location lc.country]
      ++ (if current < total then [Event.sleep delay] else [])
    runTerms provider lc total delay ts ⟨current, all_jobs, trace⟩

/-- The outer `for location_config in locations` loop. -/
def runLocations (provider : Provider) (terms : List String) (total delay : Nat) :
    List LocationConfig → LoopState → LoopState
  | [], s => s
  | lc :: rest, s =>
    runLocations provider terms total delay rest (runTerms provider lc total delay terms s)

/-- Column set of `pd.concat`: the union of the batch columns in order of
first appearance. -/
def concatColumns (dfs : List DataFrame) : List String :=
  drop_duplicates_by (fun c => c) ((dfs.map (fun d => d.columns)).flatten)

/-- Row alignment of `pd.concat`: reindex a row to the union schema,
filling a missing cell with float NaN. -/
def alignRow (cols : List String) (r : Record) : Record :=
  cols.map (fun c => (c, (getField r c).getD (Value.float none)))

/-- `pd.concat(all_jobs, ignore_index=True)`. -/
def concatDFs (dfs : List DataFrame) : DataFrame :=
  let cols := concatColumns dfs
  { columns := cols, rows := ((dfs.map (fun d => d.rows)).flatten).map (alignRow cols) }

/-- `JobCollector._consolidate_and_export`: concatenate the batches, drop
duplicates (by `id` when present), clean, export; the returned flag is the
exporter's. -/
def _consolidate_and_export (ioFail : Bool) (all_jobs : List DataFrame) :
    Bool × List Event :=
  let consolidated := concatDFs all_jobs
  let unique_jobs := (dedupStep consolidated).1
  let clean_jobs := cleaner_clean (some unique_jobs)
  let success := exporter_export ioFail clean_jobs
  (success, [Event.consolidateEv, Event.cleanEv, Event.exportEv])

/-- `JobCollector.collect_and_export`: run the location × term loop; if no
batch was collected report failure (no consolidation, cleaning or export),
otherwise consolidate and export. -/
def collect_and_export (provider : Provider) (search_terms : List String)
    (locations : List LocationConfig) (delay : Nat) (ioFail : Bool) : Bool × List Event :=
  let total := search_terms.length * locations.length
  let final := runLocations provider search_terms total delay locations ⟨0, [], []⟩
  if final.all_jobs.isEmpty then (false, final.trace)
  else
    let r := _consolidate_and_export ioFail final.all_jobs
    (r.1, final.trace ++ r.2)

/-- The batches the loop accumulates: for each location (outer) and term
(inner), the tagged non-empty provider results, in order. -/
def collectedBatches (provider : Provider) (terms : List String)
    (locations : List LocationConfig) : List DataFrame :=
  (locations.map (fun lc => terms.filterMap (fun t => batchOf provider lc t))).flatten

/-- Number of pauses taken by iterations `c+1, ..., c+n` of a run of
`total` combinations: one per iteration that is not the last combination. -/
def sleepCount : Nat → Nat → Nat → Nat
  | _, 0, _ => 0
  | c, n + 1, total => (if c + 1 < total then 1 else 0) + sleepCount (c + 1) n total

theorem sleepCount_add : ∀ (m : Nat) (c n total : Nat),
    sleepCount c (m + n) total = sleepCount c m total + sleepCount (c + m) n total
  | 0, c, n, total => by simp [sleepCount]
  | m + 1, c, n, total => by
    have h : m + 1 + n = (m + n) + 1 := by omega
    rw [h]
    show (if c + 1 < total then 1 else 0) + sleepCount (c + 1) (m + n) total
        = ((if c + 1 < total then 1 else 0) + sleepCount (c + 1) m total)
          + sleepCount (c + (m + 1)) n total
    rw [sleepCount_add m (c + 1) n total]
    have h2 : c + 1 + m = c + (m + 1) := by omega
    rw [h2]
    omega

theorem sleepCount_self : ∀ (n c : Nat), sleepCount c n (c + n) = n - 1
  | 0, c => rfl
  | 1, c => by simp [sleepCount]
  | n + 2, c => by
    show (if c + 1 < c + (n + 2) then 1 else 0)
        + sleepCount (c + 1) (n + 1) (c + (n + 2)) = n + 2 - 1
    have h1 : c + 1 < c + (n + 2) := by omega
    rw [if_pos h1]
    have h2 : c + (n + 2) = (c + 1) + (n + 1) := by omega
    rw [h2, sleepCount_self (n + 1) (c + 1)]
    omega

theorem runTerms_all_jobs (provider : Provider) (lc : LocationConfig) (total delay : Nat)
    (ts : List String) : ∀ s : LoopState,
    (runTerms provider lc total delay ts s).all_jobs
      = s.all_jobs ++ ts.filterMap (fun t => batchOf provider lc t) := by
  induction ts with
  | nil => intro s; simp [runTerms]
  | cons t ts ih =>
    intro s
    rw [runTerms, ih, List.filterMap_cons]
    cases batchOf provider lc t <;> simp

theorem runTerms_current (provider : Provider) (lc : LocationConfig) (total delay : Nat)
    (ts : List String) : ∀ s : LoopState,
    (runTerms provider lc total delay ts s).current = s.current + ts.length := by
  induction ts with
  | nil => intro s; simp [runTerms]
  | cons t ts ih =>
    intro s
    rw [runTerms, ih]
    simp
    omega

theorem runTerms_searches (provider : Provider) (lc : LocationConfig) (total delay : Nat)
    (ts : List String) : ∀ s : LoopState,
    (runTerms provider lc total delay ts s).trace.filter isSearchEv
      = s.trace.filter isSearchEv
        ++ ts.map (fun t => Event.search t lc.location lc.country) := by
  induction ts with
  | nil => intro s; simp [runTerms]
  | cons t ts ih =>
    intro s
    rw [runTerms, ih]
    simp only [List.filter_append]
    have hsleep : (if s.current + 1 < total then [Event.sleep delay] else []).filter isSearchEv
        = [] := by
      split <;> rfl
    rw [hsleep]
    simp [isSearchEv]

theorem runTerms_sleeps (provider : Provider) (lc : LocationConfig) (total delay : Nat)
    (ts : List String) : ∀ s : LoopState,
    (runTerms provider lc total delay ts s).trace.countP isSleepEv
      = s.trace.countP isSleepEv + sleepCount s.current ts.length total := by
  induction ts with
  | nil => intro s; simp [runTerms, sleepCount]
  | cons t ts ih =>
    intro s
    rw [runTerms, ih]
    simp only [List.countP_append]
    have hsleep : (if s.current + 1 < total then [Event.sleep delay] else []).countP isSleepEv
        = if s.current + 1 < total then 1 else 0 := by
      split <;> simp [isSleepEv, List.countP_cons]
    rw [hsleep]
    simp only [List.length_cons, sleepCount]
    have hsearch : List.countP isSleepEv [Event.search t lc.location lc.country] = 0 := by
      simp [isSleepEv, List.countP_cons]
    rw [hsearch]
    omega

theorem runTerms_trace_mem (provider : Provider) (lc : LocationConfig) (total delay : Nat)
    (ts : List String) : ∀ s : LoopState,
    ∀ e ∈ (runTerms provider lc total delay ts s).trace,
      e ∈ s.trace ∨ isSearchEv e = true ∨ e = Event.sleep delay := by
  induction ts with
  | nil => intro s e he; exact Or.inl he
  | cons t ts ih =>
    intro s e he
    rw [runTerms] at he
    rcases ih _ e he with hmem | h | h
    · rcases List.mem_append.mp hmem with hmem' | htail
      · rcases List.mem_append.mp hmem' with hs | hsearch
        · exact Or.inl hs
        · rcases List.mem_singleton.mp hsearch with rfl
          exact Or.inr (Or.inl rfl)
      · right; right
        revert htail
        split
        · intro htail
          exact (List.mem_singleton.mp htail)
        · intro htail
          cases htail
    · exact Or.inr (Or.inl h)
    · exact Or.inr (Or.inr h)

theorem runLocations_all_jobs (provider : Provider) (terms : List String) (total delay : Nat)
    (locs : List LocationConfig) : ∀ s : LoopState,
    (runLocations provider terms total delay locs s).all_jobs
      = s.all_jobs
        ++ (locs.map (fun lc => terms.filterMap (fun t => batchOf provider lc t))).flatten := by
  induction locs with
  | nil => intro s; simp [runLocations]
  | cons lc rest ih =>
    intro s
    rw [runLocations, ih, runTerms_all_jobs]
    simp [List.append_assoc]

theorem runLocations_searches (provider : Provider) (terms : List String) (total delay : Nat)
    (locs : List LocationConfig) : ∀ s : LoopState,
    (runLocations provider terms total delay locs s).trace.filter isSearchEv
      = s.trace.filter isSearchEv
        ++ (locs.map (fun lc =>
              terms.map (fun t => Event.search t lc.location lc.country))).flatten := by
  induction locs with
  | nil => intro s; simp [runLocations]
  | cons lc rest ih =>
    intro s
    rw [runLocations, ih, runTerms_searches]
    simp [List.append_assoc]

theorem runLocations_sleeps (provider : Provider) (terms : List String) (total delay : Nat)
    (locs : List LocationConfig) : ∀ s : LoopState,
    (runLocations provider terms total delay locs s).trace.countP isSleepEv
      = s.trace.countP isSleepEv
        + sleepCount s.current (locs.length * terms.length) total := by
  induction locs with
  | nil => intro s; simp [runLocations, sleepCount]
  | cons lc rest ih =>
    intro s
    rw [runLocations, ih, runTerms_sleeps, runTerms_current]
    rw [Nat.add_assoc, ← sleepCount_add]
    congr 2
    simp [Nat.succ_mul, Nat.add_comm]

theorem runLocations_trace_mem (provider : Provider) (terms : List String) (total delay : Nat)
    (locs : List LocationConfig) : ∀ s : LoopState,
    ∀ e ∈ (runLocations provider terms total delay locs s).trace,
      e ∈ s.trace ∨ isSearchEv e = true ∨ e = Event.sleep delay := by
  induction locs with
  | nil => intro s e he; exact Or.inl he
  | cons lc rest ih =>
    intro s e he
    rcases ih _ e he with hmem | h | h
    · exact runTerms_trace_mem provider lc total delay terms s e hmem
    · exact Or.inr (Or.inl h)
    · exact Or.inr (Or.inr h)

theorem consolidate_export_events (ioFail : Bool) (all_jobs : List DataFrame) :
    (_consolidate_and_export ioFail all_jobs).2
      = [Event.consolidateEv, Event.cleanEv, Event.exportEv] :=
  rfl

/-- Every event of the loop trace is a search or a sleep of the configured
delay: the consolidation, cleaning and export phases leave no event there. -/
theorem loop_trace_search_or_sleep (provider : Provider) (terms : List String)
    (total delay : Nat) (locs : List LocationConfig) (e : Event)
    (he : e ∈ (runLocations provider terms total delay locs ⟨0, [], []⟩).trace) :
    isSearchEv e = true ∨ e = Event.sleep delay := by
  rcases runLocations_trace_mem provider terms total delay locs ⟨0, [], []⟩ e he
    with h0 | h1 | h1
  · simp at h0
  · exact Or.inl h1
  · exact Or.inr h1

theorem flatten_eq_nil_of_forall {α : Type} (l : List (List α)) (h : ∀ x ∈ l, x = []) :
    l.flatten = [] := by
  induction l with
  | nil => rfl
  | cons a t ih =>
    rw [List.flatten_cons, h a (List.mem_cons_self a t), List.nil_append]
    exact ih (fun x hx => h x (List.mem_cons_of_mem a hx))

/-- **C4.** The orchestrator invokes the Search Provider exactly once per
(location, country) × term combination, with locations as the outer
dimension and terms as the inner dimension, in their given order; each
invocation carries exactly one search term (a `search` event holds a single
term, never a batch). -/
theorem orchestrator_search_cross_product (provider : Provider) (terms : List String)
    (locations : List LocationConfig) (delay : Nat) (ioFail : Bool) :
    (collect_and_export provider terms locations delay ioFail).2.filter isSearchEv
      = (locations.map (fun lc =>
          terms.map (fun t => Event.search t lc.location lc.country))).flatten := by
  simp only [collect_and_export]
  split
  · rw [runLocations_searches]
    rfl
  · simp only [List.filter_append, consolidate_export_events, runLocations_searches]
    simp [isSearchEv]

/-- **C3.** If zero combinations produce any records (every task fails or
returns an empty result), the run returns the boolean failure signal
`false` — no exception — and neither consolidation, cleaning nor export is
performed; if at least one combination produced at least one record, the
run proceeds to consolidation, cleaning and export with exactly the subset
of batches that were collected. -/
theorem run_exhaustion_and_partial_success (provider : Provider) (terms : List String)
    (locations : List LocationConfig) (delay : Nat) (ioFail : Bool) :
    ((∀ lc ∈ locations, ∀ t ∈ terms, batchOf provider lc t = none) →
      (collect_and_export provider terms locations delay ioFail).1 = false ∧
      Event.consolidateEv ∉ (collect_and_export provider terms locations delay ioFail).2 ∧
      Event.cleanEv ∉ (collect_and_export provider terms locations delay ioFail).2 ∧
      Event.exportEv ∉ (collect_and_export provider terms locations delay ioFail).2) ∧
    ((∃ lc ∈ locations, ∃ t ∈ terms, batchOf provider lc t ≠ none) →
      (collect_and_export provider terms locations delay ioFail).1
        = (_consolidate_and_export ioFail (collectedBatches provider terms locations)).1 ∧
      Event.consolidateEv ∈ (collect_and_export provider terms locations delay ioFail).2 ∧
      Event.cleanEv ∈ (collect_and_export provider terms locations delay ioFail).2 ∧
      Event.exportEv ∈ (collect_and_export provider terms locations delay ioFail).2) := by
  have hjobs : (runLocations provider terms (terms.length * locations.length) delay
      locations ⟨0, [], []⟩).all_jobs = collectedBatches provider terms locations := by
    rw [runLocations_all_jobs]
    rfl
  constructor
  · intro h
    have hnil : collectedBatches provider terms locations = [] := by
      apply flatten_eq_nil_of_forall
      intro x hx
      rcases List.mem_map.mp hx with ⟨lc, hlc, rfl⟩
      exact List.filterMap_eq_nil_iff.mpr (fun t ht => h lc hlc t ht)
    have hempty : (runLocations provider terms (terms.length * locations.length) delay
        locations ⟨0, [], []⟩).all_jobs.isEmpty = true := by
      rw [hjobs, hnil]
      rfl
    have hco : collect_and_export provider terms locations delay ioFail
        = (false, (runLocations provider terms (terms.length * locations.length) delay
            locations ⟨0, [], []⟩).trace) := by
      simp only [collect_and_export]
      rw [if_pos hempty]
    rw [hco]
    have hnotin : ∀ e : Event, isSearchEv e = false → e ≠ Event.sleep delay →
        e ∉ (runLocations provider terms (terms.length * locations.length) delay
          locations ⟨0, [], []⟩).trace := by
      intro e hs hne hmem
      rcases loop_trace_search_or_sleep provider terms _ delay locations e hmem with h1 | h1
      · rw [hs] at h1; cases h1
      · exact hne h1
    exact ⟨rfl, hnotin _ rfl (by simp), hnotin _ rfl (by simp), hnotin _ rfl (by simp)⟩
  · rintro ⟨lc, hlc, t, ht, hne⟩
    cases hb : batchOf provider lc t with
    | none => exact absurd hb hne
    | some b =>
      have hbmem : b ∈ collectedBatches provider terms locations := by
        apply List.mem_flatten.mpr
        refine ⟨terms.filterMap (fun t => batchOf provider lc t), ?_, ?_⟩
        · exact List.mem_map_of_mem _ hlc
        · exact List.mem_filterMap.mpr ⟨t, ht, hb⟩
      have hempty : (runLocations provider terms (terms.length * locations.length) delay
          locations ⟨0, [], []⟩).all_jobs.isEmpty = false := by
        rw [hjobs]
        rcases hcb : collectedBatches provider terms locations with _ | ⟨a, l⟩
        · rw [hcb] at hbmem; cases hbmem
        · rfl
      have hco : collect_and_export provider terms locations delay ioFail
          = ((_consolidate_and_export ioFail (collectedBatches provider terms locations)).1,
             (runLocations provider terms (terms.length * locations.length) delay
               locations ⟨0, [], []⟩).trace
               ++ [Event.consolidateEv, Event.cleanEv, Event.exportEv]) := by
        simp only [collect_and_export]
        rw [if_neg (by rw [hempty]; exact Bool.false_ne_true), hjobs]
        rfl
      rw [hco]
      refine ⟨rfl, ?_, ?_, ?_⟩ <;> exact List.mem_append_right _ (by simp)

/-- A provider for which every task fails. -/
def providerNone : Provider := fun _ _ _ => none

/-- A provider for which every task returns one record. -/
def providerOne : Provider :=
  fun _ _ _ => some { columns := ["id"], rows := [[("id", Value.int 1)]] }

/-- The configured location used in the orchestrator witnesses. -/
def witnessLoc : LocationConfig := { location := "Recife", country := "Brazil" }

theorem run_exhaustion_and_partial_success_witness :
    ((collect_and_export providerNone ["qa"] [witnessLoc] 2 false).1 = false ∧
     Event.consolidateEv ∉ (collect_and_export providerNone ["qa"] [witnessLoc] 2 false).2 ∧
     Event.cleanEv ∉ (collect_and_export providerNone ["qa"] [witnessLoc] 2 false).2 ∧
     Event.exportEv ∉ (collect_and_export providerNone ["qa"] [witnessLoc] 2 false).2) ∧
    ((collect_and_export providerOne ["qa"] [witnessLoc] 2 false).1
        = (_consolidate_and_export false (collectedBatches providerOne ["qa"] [witnessLoc])).1 ∧
     Event.consolidateEv ∈ (collect_and_export providerOne ["qa"] [witnessLoc] 2 false).2 ∧
     Event.cleanEv ∈ (collect_and_export providerOne ["qa"] [witnessLoc] 2 false).2 ∧
     Event.exportEv ∈ (collect_and_export providerOne ["qa"] [witnessLoc] 2 false).2) :=
  ⟨(run_exhaustion_and_partial_success providerNone ["qa"] [witnessLoc] 2 false).1
      (fun lc _ t _ => rfl),
   (run_exhaustion_and_partial_success providerOne ["qa"] [witnessLoc] 2 false).2
      ⟨witnessLoc, by simp, "qa", by simp, by decide⟩⟩

/-- **C8.** Every run with n = locations × terms combinations performs
exactly n − 1 pauses, each of the configured fixed duration: one after
every Search Provider call except the last combination, regardless of
whether individual calls succeeded, failed or returned empty results
(the provider oracle is universally quantified and the sleep count does
not depend on it). -/
theorem pacing_sleeps_between_searches (provider : Provider) (terms : List String)
    (locations : List LocationConfig) (delay : Nat) (ioFail : Bool) :
    (collect_and_export provider terms locations delay ioFail).2.filter isSleepEv
      = List.replicate (terms.length * locations.length - 1) (Event.sleep delay) := by
  have hcount : ∀ tr : List Event, tr.countP isSleepEv
        = sleepCount 0 (locations.length * terms.length) (terms.length * locations.length) →
      tr.countP isSleepEv = terms.length * locations.length - 1 := by
    intro tr htr
    rw [htr, Nat.mul_comm]
    have := sleepCount_self (terms.length * locations.length) 0
    simpa using this
  have hmem : ∀ e ∈ (collect_and_export provider terms locations delay ioFail).2,
      isSleepEv e = true → e = Event.sleep delay := by
    intro e he hsl
    have hss : isSearchEv e = true ∨ e = Event.sleep delay := by
      simp only [collect_and_export] at he
      split at he
      · exact loop_trace_search_or_sleep provider terms _ delay locations e he
      · rcases List.mem_append.mp he with hloop | hevs
        · exact loop_trace_search_or_sleep provider terms _ delay locations e hloop
        · rw [consolidate_export_events] at hevs
          simp only [List.mem_cons, List.not_mem_nil, or_false] at hevs
          rcases hevs with rfl | rfl | rfl <;> simp [isSleepEv] at hsl
    rcases hss with h1 | h1
    · exfalso
      cases e <;> simp [isSearchEv] at h1
      simp [isSleepEv] at hsl
    · exact h1
  have hlen : ((collect_and_export provider terms locations delay ioFail).2.filter
      isSleepEv).length = terms.length * locations.length - 1 := by
    rw [← List.countP_eq_length_filter]
    apply hcount
    simp only [collect_and_export]
    split
    · rw [runLocations_sleeps]
      simp [isSleepEv, List.countP_cons]
    · rw [List.countP_append, runLocations_sleeps, consolidate_export_events]
      simp [isSleepEv, List.countP_cons]
  have hall : ∀ b ∈ (collect_and_export provider terms locations delay ioFail).2.filter
      isSleepEv, b = Event.sleep delay := by
    intro b hb
    have hm := List.mem_filter.mp hb
    exact hmem b hm.1 hm.2
  calc (collect_and_export provider terms locations delay ioFail).2.filter isSleepEv
      = List.replicate ((collect_and_export provider terms locations delay
          ioFail).2.filter isSleepEv).length (Event.sleep delay) :=
        List.eq_replicate_of_mem hall
    _ = List.replicate (terms.length * locations.length - 1) (Event.sleep delay) := by
        rw [hlen]
